import Mathlib

/-!
Verification of the stoxxo_monitor alert delivery pipeline.

This file gives a shallow embedding of the core of the repository:

* `core/telegram_client.py` — `BurstBuffer` (fingerprinting, bullet and
  summary construction, flush) and `SenderThread` (rate-limited drain with
  backlog combination), modelled as pure state-transition functions;
* `services/alert_checker.py` — `AlertChecker` rule evaluation and the
  cooldown registry.

Python floats for wall-clock times and monetary values are embedded as `ℚ`;
Python strings as Lean `String` (operating on `String.data`, the underlying
character list, so every function is structurally computable).  Mutable
objects become explicit state records, and one iteration of a mutating loop
becomes a step function on that state.
-/

namespace StoxxoMonitor

/-! ### Python string primitives

`str.strip`, `str.splitlines`, `str.startswith`, slicing, and the two
regular-expression operations actually used by `BurstBuffer`
(`re.sub(r'\s*@\s*[\d:]+', '', line)`).  All are written as structural
recursion over character lists so that `decide` can evaluate them.
-/

/-- Characters treated as whitespace by Python `str.strip` / regex `\s`
(ASCII fragment, which is all the repository ever feeds it). -/
def isPySpace (c : Char) : Bool :=
  c = ' ' || c = '\t' || c = '\n' || c = '\r' || c = '\x0b' || c = '\x0c'

/-- Python `str.strip()`: drop whitespace from both ends. -/
def pyStrip (s : String) : String :=
  ⟨((s.data.dropWhile isPySpace).reverse.dropWhile isPySpace).reverse⟩

/-- Python `str.startswith(p)`. -/
def pyStartsWith (s p : String) : Bool :=
  p.data.isPrefixOf s.data

/-- Python `s[n:]`. -/
def pyDrop (s : String) (n : ℕ) : String :=
  ⟨s.data.drop n⟩

/-- Split a character list at every newline (keeping empty pieces). -/
def splitNl : List Char → List Char → List (List Char)
  | [], acc => [acc.reverse]
  | '\n' :: cs, acc => acc.reverse :: splitNl cs []
  | c :: cs, acc => splitNl cs (c :: acc)

/-- Python `str.splitlines()` for `\n`-separated text: the empty string has
no lines, and a trailing newline does not create a final empty line. -/
def pySplitlines (s : String) : List String :=
  match s.data with
  | [] => []
  | cs =>
    let parts := (splitNl cs []).map (fun l => (⟨l⟩ : String))
    if parts.getLast? = some "" then parts.dropLast else parts

/-- Digit or colon, the character class `[\d:]` of the timestamp pattern. -/
def isDigitColon (c : Char) : Bool :=
  c.isDigit || c = ':'

/-- Try to match the regex `\s*@\s*[\d:]+` at the head of the list; on
success return the remainder after the match.  Greedy matching with
backtracking collapses to maximal-munch here because every alternative
after a shorter whitespace run immediately fails. -/
def matchTsTok (cs : List Char) : Option (List Char) :=
  let afterWs := cs.dropWhile isPySpace
  match afterWs with
  | '@' :: rest =>
    let afterWs2 := rest.dropWhile isPySpace
    let digits := afterWs2.takeWhile isDigitColon
    if digits.isEmpty then none else some (afterWs2.dropWhile isDigitColon)
  | _ => none

/-- One scan of `re.sub(r'\s*@\s*[\d:]+', '', s)`: leftmost non-overlapping
matches are deleted.  `fuel` bounds the recursion (a successful match always
consumes at least the `@`, so `fuel = length` suffices); the fuel-exhausted
branch is unreachable for the fuel the wrapper supplies. -/
def subTsAux : ℕ → List Char → List Char
  | 0, _ => []
  | _ + 1, [] => []
  | fuel + 1, c :: cs =>
    match matchTsTok (c :: cs) with
    | some rest => subTsAux fuel rest
    | none => c :: subTsAux fuel cs

/-- `re.sub(r'\s*@\s*[\d:]+', '', s)` — strip every timestamp token. -/
def subTs (s : String) : String :=
  ⟨subTsAux s.data.length s.data⟩

theorem subTs_sample : subTs "⚠️ ATTENTION @ 13:12:30" = "⚠️ ATTENTION" := by decide

theorem pyStrip_sample : pyStrip "  a b  " = "a b" := by decide

theorem pySplitlines_sample₁ : pySplitlines "a\nb\n" = ["a", "b"] := by decide

theorem pySplitlines_sample₂ : pySplitlines "" = [] := by decide

theorem pySplitlines_sample₃ : pySplitlines "a\n\nb" = ["a", "", "b"] := by decide

/-! ### BurstBuffer fingerprint (`BurstBuffer._fingerprint`) -/

/-- The non-empty stripped lines of a message:
`[l.strip() for l in message.splitlines() if l.strip()]`. -/
def nonEmptyLines (m : String) : List String :=
  ((pySplitlines m).filter (fun l => pyStrip l ≠ "")).map pyStrip

/-- Header component of the fingerprint: the first non-empty line with the
timestamp token stripped, re-stripped. -/
def fpHeader (m : String) : String :=
  match nonEmptyLines m with
  | [] => ""
  | l0 :: _ => pyStrip (subTs l0)

/-- Identity component of the fingerprint: the second non-empty line. -/
def fpUser (m : String) : String :=
  match nonEmptyLines m with
  | _ :: l1 :: _ => pyStrip l1
  | _ => ""

/-- `BurstBuffer._fingerprint`: `f"{header} | {user}"`. -/
def fingerprintFn (m : String) : String :=
  fpHeader m ++ " | " ++ fpUser m

theorem fingerprintFn_sample :
    fingerprintFn "⚠️ ATTENTION @ 13:12:30\nUser: FZ20267 (SUNNY)\nPortfolio: A"
      = "⚠️ ATTENTION | User: FZ20267 (SUNNY)" := by decide

/-! ### Field extraction and bullets (`BurstBuffer._extract_field`,
`BurstBuffer._build_bullet`) -/

/-- Scan lines for the first whose stripped form starts with `fld`, and
return the stripped remainder after the field name. -/
def extractFieldGo (fld : String) : List String → String
  | [] => ""
  | l :: ls =>
    let s := pyStrip l
    if pyStartsWith s fld then pyStrip (pyDrop s fld.data.length)
    else extractFieldGo fld ls

/-- `BurstBuffer._extract_field(message, prefix)`. -/
def extractField (m fld : String) : String :=
  extractFieldGo fld (pySplitlines m)

/-- `BurstBuffer._build_bullet`: grid-log alerts (with an `Issue:` field),
position alerts (with `Metric:`/`Threshold:`/`Actual:`), and the generic
fallback using the last non-empty line. -/
def buildBullet (m : String) : String :=
  let portfolio := extractField m "Portfolio:"
  let issue := extractField m "Issue:"
  let metric := extractField m "Metric:"
  let threshold := extractField m "Threshold:"
  let actual := extractField m "Actual:"
  if issue ≠ "" then
    if portfolio ≠ "" then "  • " ++ portfolio ++ "  —  " ++ issue
    else "  • " ++ issue
  else if metric ≠ "" then
    if threshold ≠ "" && actual ≠ "" then
      "  • " ++ metric ++ "\n      Threshold: " ++ threshold ++ "  |  Actual: " ++ actual
    else if threshold ≠ "" then
      "  • " ++ metric ++ "\n      Threshold: " ++ threshold
    else "  • " ++ metric
  else
    match (nonEmptyLines m).getLast? with
    | some l => "  • " ++ l
    | none => "  • (no detail)"

theorem buildBullet_sample₁ :
    buildBullet "⚠️ ATTENTION\nUser: X\nPortfolio: P1\nIssue: Rejected"
      = "  • P1  —  Rejected" := by decide

theorem buildBullet_sample₂ : buildBullet "hello\nworld" = "  • world" := by decide

theorem buildBullet_sample₃ : buildBullet "" = "  • (no detail)" := by decide

/-! ### Summary construction (`BurstBuffer._build_summary`) -/

/-- Two-digit decimal rendering used by `strftime("%H:%M:%S")`. -/
def pad2 (n : ℕ) : String :=
  if n < 10 then "0" ++ Nat.repr n else Nat.repr n

/-- `datetime.fromtimestamp(ts).strftime("%H:%M:%S")`, embedded for a UTC
clock: the time of day of the (floored) epoch second. -/
def fmtTime (t : ℚ) : String :=
  let secs : ℕ := (Rat.floor t % 86400).toNat
  pad2 (secs / 3600) ++ ":" ++ pad2 (secs % 3600 / 60) ++ ":" ++ pad2 (secs % 60)

theorem fmtTime_sample : fmtTime (47550 : ℚ) = "13:12:30" := by decide

/-- A buffered entry: `(time.time(), message)`. -/
abbrev Entry := ℚ × String

/-- Divider line of a summary: 33 box-drawing dashes. -/
def summaryDivider : String := ⟨List.replicate 33 '─'⟩

/-- `BurstBuffer._build_summary(entries, count)`: header with count and
first–last time range, the identity line of the first entry, a divider,
then one bullet per entry. -/
def buildSummary (entries : List Entry) (count : ℕ) : String :=
  let firstTs := (entries.headD (0, "")).1
  let lastTs := ((entries.getLast?).getD (0, "")).1
  let template := (entries.headD (0, "")).2
  let tLines := pySplitlines template
  let headerBase :=
    match tLines with
    | [] => ""
    | l0 :: _ => pyStrip (subTs l0)
  let firstTime := fmtTime firstTs
  let lastTime := fmtTime lastTs
  let timeRange := if firstTime = lastTime then firstTime
    else firstTime ++ "–" ++ lastTime
  let header := headerBase ++ " — " ++ Nat.repr count ++ " alerts @ " ++ timeRange
  let userLine := (tLines.get? 1).elim "" pyStrip
  let bullets := entries.map (fun e => buildBullet e.2)
  String.intercalate "\n" ([header, userLine, summaryDivider] ++ bullets)

/-! ### BurstBuffer state, `add` and `_flush`

The mutable buffer (`_groups`, `_silence_timer`, `_max_timer`) becomes an
explicit state record.  A `threading.Timer` is embedded as its scheduled
deadline; cancelling and re-arming a timer is replacing the deadline, and a
field equal to `none` is Python `None`.  `_groups` is a `defaultdict` in
insertion order, embedded as an association list. -/

structure BurstState where
  groups : List (String × List Entry)
  silenceTimer : Option ℚ
  maxTimer : Option ℚ
  deriving DecidableEq

/-- Append an entry to the group of `fp`, creating the group at the end on
first use (Python `defaultdict(list)` insertion order). -/
def pushEntry (groups : List (String × List Entry)) (fp : String) (e : Entry) :
    List (String × List Entry) :=
  match groups with
  | [] => [(fp, [e])]
  | (k, es) :: rest =>
    if k = fp then (k, es ++ [e]) :: rest
    else (k, es) :: pushEntry rest fp e

/-- `SILENCE_SECONDS = 0.2`. -/
def SILENCE_SECONDS : ℚ := 1 / 5

/-- `MAX_WAIT_SECONDS = 2.0`. -/
def MAX_WAIT_SECONDS : ℚ := 2

/-- `BurstBuffer.add(message)` at wall-clock time `now`: group the message
by fingerprint, cancel-and-re-arm the buffer-wide silence timer, and arm
the max-wait timer only if absent. -/
def addMsg (now : ℚ) (message : String) (s : BurstState) : BurstState :=
  { groups := pushEntry s.groups (fingerprintFn message) (now, message)
    silenceTimer := some (now + SILENCE_SECONDS)
    maxTimer :=
      match s.maxTimer with
      | none => some (now + MAX_WAIT_SECONDS)
      | some d => some d }

/-- Output message for one flushed group (`_flush` body): a singleton group
passes the original message through, a larger group is summarized. -/
def groupOutput (g : String × List Entry) : String :=
  if g.2.length = 1 then (g.2.headD (0, "")).2
  else buildSummary g.2 g.2.length

/-- `BurstBuffer._flush`: no-op on an empty buffer; otherwise clear the
groups, cancel both timers, and emit one output message per group (the list
handed to the flush callback). -/
def flushStep (s : BurstState) : BurstState × List String :=
  if s.groups = [] then (s, [])
  else (⟨[], none, none⟩, s.groups.map groupOutput)

/-! ### SenderThread (`core/telegram_client.py`)

The sender's mutable state is the FIFO `queue.Queue` and the `_sent_ts`
deque.  One pass through the body of the `while` loop of `_drain_once`
becomes `drainStep`, parameterised by the current wall-clock time `now` and
by whether the HTTP delivery succeeds (`ok`); sleeping is not modelled —
time advances through the `now` arguments of successive steps.  A send that
completes is reported as a `SendEvent`, which is exactly one appended
`_sent_ts` timestamp. -/

/-- `RATE_LIMIT_WINDOW = 58` seconds. -/
def RATE_LIMIT_WINDOW : ℚ := 58

/-- `RATE_LIMIT_MAX = 18` messages per window. -/
def RATE_LIMIT_MAX : ℕ := 18

/-- `COMBINE_THRESHOLD = 5`. -/
def COMBINE_THRESHOLD : ℕ := 5

structure SenderState where
  queue : List String
  sentTs : List ℚ
  deriving DecidableEq

inductive SendKind where
  | normal
  | combined
  deriving DecidableEq

structure SendEvent where
  ts : ℚ
  kind : SendKind
  msg : String
  deriving DecidableEq

/-- `_clean_old_timestamps`: pop leading timestamps older than
`now - RATE_LIMIT_WINDOW`. -/
def cleanOld (now : ℚ) (l : List ℚ) : List ℚ :=
  l.dropWhile (fun x => decide (x < now - RATE_LIMIT_WINDOW))

/-- `_send_combined_backlog`'s message construction: a single message is
passed through, otherwise a `BACKLOG COMBINED` header with the count, a
divider of 36 dashes, and the numbered sub-entries joined by blank lines. -/
def combineMessages (messages : List String) : String :=
  if messages.length = 1 then messages.headD ""
  else
    "BACKLOG COMBINED (" ++ Nat.repr messages.length ++ " alerts)\n"
      ++ (⟨List.replicate 36 '─'⟩ : String) ++ "\n\n"
      ++ String.intercalate "\n\n"
          ((messages.enum).map (fun p => "[" ++ Nat.repr (p.1 + 1) ++ "] " ++ p.2))

/-- One iteration of the `while not self._queue.empty()` loop of
`_drain_once` at time `now`, with delivery outcome `ok`:

* empty queue — the loop exits, nothing happens;
* after pruning, at the limit with the oldest timestamp unexpired:
  combine the whole backlog if at least `COMBINE_THRESHOLD` messages are
  queued (recording one timestamp on success), otherwise sleep (no state
  change beyond the pruning);
* at the limit with the oldest timestamp just expired — `continue`;
* under the limit — pop one message, deliver, and record a timestamp on
  success (on failure the message is dropped). -/
def drainStep (now : ℚ) (ok : Bool) (s : SenderState) : SenderState × Option SendEvent :=
  match s.queue with
  | [] => (s, none)
  | m :: rest =>
    let ts := cleanOld now s.sentTs
    if RATE_LIMIT_MAX ≤ ts.length then
      if now - RATE_LIMIT_WINDOW < ts.headD 0 then
        if COMBINE_THRESHOLD ≤ (m :: rest).length then
          if ok then
            (⟨[], ts ++ [now]⟩, some ⟨now, SendKind.combined, combineMessages (m :: rest)⟩)
          else (⟨[], ts⟩, none)
        else (⟨m :: rest, ts⟩, none)
      else (⟨m :: rest, ts⟩, none)
    else
      if ok then (⟨rest, ts ++ [now]⟩, some ⟨now, SendKind.normal, m⟩)
      else (⟨rest, ts⟩, none)

/-- Run a sequence of drain iterations, collecting the completed sends. -/
def runDrain : List (ℚ × Bool) → SenderState → SenderState × List SendEvent
  | [], s => (s, [])
  | (now, ok) :: steps, s =>
    let p := drainStep now ok s
    let q := runDrain steps p.1
    (q.1, p.2.toList ++ q.2)

/-- Membership of a send in the sliding window `(t, t + W]`. -/
def inWindow (t : ℚ) (e : SendEvent) : Bool :=
  decide (t < e.ts) && decide (e.ts ≤ t + RATE_LIMIT_WINDOW)

/-- Number of completed sends recorded in the sliding window `(t, t + W]`. -/
def windowCount (evts : List SendEvent) (t : ℚ) : ℕ :=
  evts.countP (inWindow t)

/-- Number of combined-backlog sends recorded in the window `(t, t + W]`. -/
def windowCombined (evts : List SendEvent) (t : ℚ) : ℕ :=
  evts.countP (fun e => inWindow t e && e.kind == SendKind.combined)

/-! ### AlertChecker (`services/alert_checker.py`)

Position metrics and thresholds are Python floats, embedded as `ℚ`.  A
threshold string that is blank or unparsable disables its rule; that string
handling is embedded by giving the checker an `Option ℚ` — `none` for a
blank/invalid entry, `some t` for a string parsing to `t`. -/

structure OptionsPositionSummary where
  user_alias : String
  live_pnl : ℚ
  call_sell_qty : ℚ
  put_sell_qty : ℚ
  call_buy_qty : ℚ
  put_buy_qty : ℚ
  calls_net : ℚ
  puts_net : ℚ
  available_margin : ℚ
  utilized_margin : ℚ
  deriving DecidableEq

structure AlertEvent where
  user_alias : String
  alert_type : String
  metric_name : String
  threshold : ℚ
  actual_value : ℚ
  timestamp : ℚ
  deriving DecidableEq

/-- ROI% as computed by `_check_mtm_roi`: `(live_pnl / utilized_margin) *
100` guarded by `utilized_margin > 0`, else `0`. -/
def roiPercent (s : OptionsPositionSummary) : ℚ :=
  if 0 < s.utilized_margin then s.live_pnl / s.utilized_margin * 100 else 0

/-- Margin utilization % as computed by `_check_margin`:
`(utilized_margin / total_margin) * 100` guarded by `total_margin > 0`,
else `0`. -/
def marginPercent (s : OptionsPositionSummary) : ℚ :=
  let totalMargin := s.available_margin + s.utilized_margin
  if 0 < totalMargin then s.utilized_margin / totalMargin * 100 else 0

/-- `_check_mtm_roi`: the four rule checks, in source order, each skipped
when its threshold is absent. -/
def checkMtmRoi (now : ℚ) (s : OptionsPositionSummary)
    (mtmAbove mtmBelow roiAbove roiBelow : Option ℚ) : List AlertEvent :=
  let mtm := s.live_pnl
  let roi := roiPercent s
  (match mtmAbove with
    | some th =>
      if th < mtm then
        [⟨s.user_alias, "mtm_above", "MTM Above Threshold", th, mtm, now⟩] else []
    | none => []) ++
  (match mtmBelow with
    | some th =>
      if mtm < th then
        [⟨s.user_alias, "mtm_below", "MTM Below Threshold", th, mtm, now⟩] else []
    | none => []) ++
  (match roiAbove with
    | some th =>
      if th < roi then
        [⟨s.user_alias, "roi_above", "ROI% Above Threshold", th, roi, now⟩] else []
    | none => []) ++
  (match roiBelow with
    | some th =>
      if roi < -th then
        [⟨s.user_alias, "roi_below", "ROI% Below Threshold", -th, roi, now⟩] else []
    | none => [])

/-- `_check_margin`: fire `margin_above` when the utilization percentage
exceeds the configured threshold. -/
def checkMargin (now : ℚ) (s : OptionsPositionSummary) (threshold : Option ℚ) :
    Option AlertEvent :=
  match threshold with
  | none => none
  | some th =>
    if th < marginPercent s then
      some ⟨s.user_alias, "margin_above", "Margin Utilization", th, marginPercent s, now⟩
    else none

/-! ### Cooldown registry (`AlertChecker._apply_cooldown`)

`self._cooldowns` is `{user_alias: {alert_type: last_trigger_time}}`;
Python dicts become association lists in insertion order (update in place,
insert at the end). -/

abbrev InnerReg := List (String × ℚ)
abbrev Registry := List (String × InnerReg)

/-- Lookup in an association list (first match). -/
def assocGet {α : Type} : List (String × α) → String → Option α
  | [], _ => none
  | (k, v) :: rest, key => if k = key then some v else assocGet rest key

/-- Update in an association list: replace the first binding in place, or
insert at the end (Python dict assignment). -/
def assocSet {α : Type} : List (String × α) → String → α → List (String × α)
  | [], key, v => [(key, v)]
  | (k, w) :: rest, key, v =>
    if k = key then (k, v) :: rest else (k, w) :: assocSet rest key v

/-- `if user_alias not in self._cooldowns: self._cooldowns[user_alias] = {}`. -/
def ensureUser (r : Registry) (u : String) : Registry :=
  match assocGet r u with
  | some _ => r
  | none => r ++ [(u, [])]

/-- `self._cooldowns[user_alias].get(alert_type, 0)`. -/
def lastTrigger (r : Registry) (u ty : String) : ℚ :=
  (assocGet ((assocGet r u).getD []) ty).getD 0

/-- `cooldown_seconds = 300`. -/
def cooldown_seconds : ℚ := 300

/-- Record an allowed firing:
`self._cooldowns[user_alias][alert_type] = current_time`. -/
def recordTrigger (r : Registry) (u ty : String) (now : ℚ) : Registry :=
  assocSet r u (assocSet ((assocGet r u).getD []) ty now)

/-- The loop body of `_apply_cooldown` over the candidate list: ensure the
user's sub-dict exists, then either pass the candidate through and stamp
the registry (cooldown expired) or suppress it (still cooling down). -/
def applyCooldownGo (now : ℚ) (r : Registry) :
    List AlertEvent → List AlertEvent × Registry
  | [] => ([], r)
  | a :: rest =>
    let r1 := ensureUser r a.user_alias
    if cooldown_seconds ≤ now - lastTrigger r1 a.user_alias a.alert_type then
      let r2 := recordTrigger r1 a.user_alias a.alert_type now
      let p := applyCooldownGo now r2 rest
      (a :: p.1, p.2)
    else
      let p := applyCooldownGo now r1 rest
      (p.1, p.2)

/-- `AlertChecker._apply_cooldown(alerts)` at time `now` over registry `r`:
returns the filtered alerts and the updated registry. -/
def applyCooldown (now : ℚ) (r : Registry) (alerts : List AlertEvent) :
    List AlertEvent × Registry :=
  applyCooldownGo now r alerts

/-! ## Helper lemmas -/

theorem strAppendCancelLeft {a b c : String} (h : a ++ b = a ++ c) : b = c := by
  apply String.ext
  have hd : (a ++ b).data = (a ++ c).data := by rw [h]
  rw [String.data_append, String.data_append] at hd
  exact List.append_cancel_left hd

theorem strAppendCancelRight {a b c : String} (h : a ++ c = b ++ c) : a = b := by
  apply String.ext
  have hd : (a ++ c).data = (b ++ c).data := by rw [h]
  rw [String.data_append, String.data_append] at hd
  exact List.append_cancel_right hd

/-! ## C5 — timer discipline of `BurstBuffer.add` -/

/-- Claim C5: every `add`, whatever the message's fingerprint, cancels and
re-arms the single buffer-wide silence timer (its deadline becomes
`now + SILENCE_SECONDS`), while the max-wait timer is armed only when no
max-wait timer exists and is otherwise left untouched. -/
theorem add_timer_discipline (s : BurstState) (now : ℚ) (m : String) :
    (addMsg now m s).silenceTimer = some (now + SILENCE_SECONDS) ∧
    (addMsg now m s).maxTimer =
      (match s.maxTimer with
        | none => some (now + MAX_WAIT_SECONDS)
        | some d => some d) := by
  exact ⟨rfl, rfl⟩

/-! ## C8 — flush of an empty buffer is a no-op, flush is idempotent -/

/-- Claim C8: flushing with no pending groups leaves the state unchanged
and invokes the callback with nothing; hence a second flush right after any
flush emits nothing — the two timers may both fire. -/
theorem flush_empty_noop (s : BurstState) :
    (s.groups = [] → flushStep s = (s, [])) ∧
    flushStep (flushStep s).1 = ((flushStep s).1, []) := by
  refine ⟨fun h => by simp [flushStep, h], ?_⟩
  by_cases h : s.groups = [] <;> simp [flushStep, h]

/-- Witness for C8 at a concrete empty buffer. -/
theorem flush_empty_noop_witness :
    flushStep ⟨[], none, none⟩ = ((⟨[], none, none⟩ : BurstState), []) ∧
    flushStep (flushStep ⟨[], none, none⟩).1 = ((flushStep ⟨[], none, none⟩).1, []) :=
  ⟨(flush_empty_noop ⟨[], none, none⟩).1 rfl, (flush_empty_noop ⟨[], none, none⟩).2⟩

/-! ## C4 — fingerprint collapse and distinctness -/

/-- Counterexample to claim C4: two messages whose timestamp-stripped
headers differ and whose identity lines differ, yet whose fingerprints
coincide — the `" | "` join of header and identity is not injective. -/
theorem fingerprint_distinct_cex :
    fingerprintFn "a | b\nc" = fingerprintFn "a\nb | c" ∧
    fpHeader "a | b\nc" ≠ fpHeader "a\nb | c" ∧
    fpUser "a | b\nc" ≠ fpUser "a\nb | c" := by
  decide

/-- Claim C4 (amended): messages with equal timestamp-stripped headers and
equal identity lines always receive the same fingerprint (so differing only
in the timestamp token or in content below the identity line collapses);
when exactly one of the two components differs the fingerprints are
distinct — but when both differ simultaneously they may coincide. -/
theorem fingerprint_collapse_amended :
    (∀ m₁ m₂ : String, fpHeader m₁ = fpHeader m₂ → fpUser m₁ = fpUser m₂ →
      fingerprintFn m₁ = fingerprintFn m₂) ∧
    (∀ m₁ m₂ : String, fpHeader m₁ = fpHeader m₂ → fpUser m₁ ≠ fpUser m₂ →
      fingerprintFn m₁ ≠ fingerprintFn m₂) ∧
    (∀ m₁ m₂ : String, fpUser m₁ = fpUser m₂ → fpHeader m₁ ≠ fpHeader m₂ →
      fingerprintFn m₁ ≠ fingerprintFn m₂) := by
  refine ⟨fun m₁ m₂ h u => ?_, fun m₁ m₂ h u heq => ?_, fun m₁ m₂ u h heq => ?_⟩
  · unfold fingerprintFn
    rw [h, u]
  · apply u
    unfold fingerprintFn at heq
    rw [h] at heq
    exact strAppendCancelLeft heq
  · apply h
    unfold fingerprintFn at heq
    rw [u] at heq
    exact strAppendCancelRight (strAppendCancelRight heq)

/-- Witness for C4's amended theorem on concrete messages: a timestamp-only
difference in the header plus a different portfolio line collapses, while a
differing identity line with an identical header never collapses. -/
theorem fingerprint_collapse_amended_witness :
    fpHeader "H @ 10:00:01\nUser: A\nPortfolio: P1" =
      fpHeader "H @ 10:00:02\nUser: A\nPortfolio: P2" ∧
    fpUser "H @ 10:00:01\nUser: A\nPortfolio: P1" =
      fpUser "H @ 10:00:02\nUser: A\nPortfolio: P2" ∧
    fingerprintFn "H @ 10:00:01\nUser: A\nPortfolio: P1" =
      fingerprintFn "H @ 10:00:02\nUser: A\nPortfolio: P2" ∧
    fpUser "H\nUser: A" ≠ fpUser "H\nUser: B" ∧
    fingerprintFn "H\nUser: A" ≠ fingerprintFn "H\nUser: B" := by
  refine ⟨by decide, by decide, ?_, by decide, ?_⟩
  · exact fingerprint_collapse_amended.1 _ _ (by decide) (by decide)
  · exact fingerprint_collapse_amended.2.1 _ _ (by decide) (by decide)

/-! ## C7 — bullet construction degrades gracefully -/

theorem extractFieldGo_eq_empty (fld : String) (ls : List String)
    (h : ∀ l ∈ ls, pyStartsWith (pyStrip l) fld = false) :
    extractFieldGo fld ls = "" := by
  induction ls with
  | nil => rfl
  | cons l ls ih =>
    unfold extractFieldGo
    simp only [h l (List.mem_cons_self l ls), Bool.false_eq_true, if_false]
    exact ih fun x hx => h x (List.mem_cons_of_mem l hx)

/-- Claim C7: a message with no `Issue:` line and no `Metric:` line never
breaks bullet construction — the bullet is the generic fallback built from
the (stripped) last non-empty line, or a placeholder when the message has
no non-empty line at all. -/
theorem bullet_fallback_total (m : String)
    (hIssue : ∀ l ∈ pySplitlines m, pyStartsWith (pyStrip l) "Issue:" = false)
    (hMetric : ∀ l ∈ pySplitlines m, pyStartsWith (pyStrip l) "Metric:" = false) :
    buildBullet m =
      (match (nonEmptyLines m).getLast? with
        | some l => "  • " ++ l
        | none => "  • (no detail)") := by
  have hi : extractField m "Issue:" = "" := extractFieldGo_eq_empty _ _ hIssue
  have hm : extractField m "Metric:" = "" := extractFieldGo_eq_empty _ _ hMetric
  unfold buildBullet
  simp [hi, hm]

/-- Witness for C7: a free-form two-line message (no structured fields)
yields the fallback bullet from its last line. -/
theorem bullet_fallback_total_witness :
    buildBullet "⚠️ X\nUser: A\nsomething happened" = "  • something happened" :=
  (bullet_fallback_total "⚠️ X\nUser: A\nsomething happened"
    (by decide) (by decide)).trans (by decide)

/-! ## C3 — flush emits one message per group, with the summary shape -/

/-- Claim C3: a flush of a non-empty buffer emits exactly one output per
pending group in insertion order; a singleton group passes its original
message through unchanged, and a group of K > 1 entries yields one summary:
the first entry's header with the timestamp token stripped plus the count
and first–last time range (shown once when the two formatted times agree),
the identity line, a divider, and exactly K bullets in arrival order. -/
theorem flush_one_message_per_group (s : BurstState) (hne : s.groups ≠ []) :
    (flushStep s).2 = s.groups.map groupOutput ∧
    (flushStep s).2.length = s.groups.length ∧
    (∀ g : String × List Entry, g.2.length = 1 →
      groupOutput g = (g.2.headD (0, "")).2) ∧
    (∀ (fp : String) (e₀ : Entry) (es : List Entry), es ≠ [] →
      groupOutput (fp, e₀ :: es) =
        String.intercalate "\n"
          (((match pySplitlines e₀.2 with
              | [] => ""
              | l₀ :: _ => pyStrip (subTs l₀)) ++ " — "
              ++ Nat.repr (e₀ :: es).length ++ " alerts @ "
              ++ (if fmtTime e₀.1 = fmtTime (((e₀ :: es).getLast?).getD (0, "")).1
                  then fmtTime e₀.1
                  else fmtTime e₀.1 ++ "–"
                    ++ fmtTime (((e₀ :: es).getLast?).getD (0, "")).1)) ::
            ((pySplitlines e₀.2).get? 1).elim "" pyStrip ::
            summaryDivider :: (e₀ :: es).map (fun e => buildBullet e.2)) ∧
      ((e₀ :: es).map (fun e => buildBullet e.2)).length = (e₀ :: es).length) := by
  refine ⟨by simp [flushStep, hne], by simp [flushStep, hne], ?_, ?_⟩
  · intro g hg
    simp [groupOutput, hg]
  · intro fp e₀ es hes
    have hlen : (e₀ :: es).length ≠ 1 := by
      cases es with
      | nil => exact absurd rfl hes
      | cons b bs => simp
    refine ⟨?_, by simp⟩
    simp only [groupOutput, hlen, if_false]
    unfold buildSummary
    simp

/-- Witness for C3 on a concrete buffer holding a singleton group and a
two-entry burst group. -/
theorem flush_one_message_per_group_witness :
    (flushStep
        ⟨[("F1", [(10, "lone\nUser: B")]),
          ("F2", [(47550, "⚠️ A @ 13:12:30\nUser: X\nPortfolio: P1\nIssue: I1"),
                  (47552, "⚠️ A @ 13:12:32\nUser: X\nPortfolio: P2\nIssue: I2")])],
          some 0, some 0⟩).2 =
      ["lone\nUser: B",
        "⚠️ A — 2 alerts @ 13:12:30–13:12:32\nUser: X\n"
          ++ summaryDivider ++ "\n  • P1  —  I1\n  • P2  —  I2"] := by
  have h := flush_one_message_per_group
    ⟨[("F1", [(10, "lone\nUser: B")]),
      ("F2", [(47550, "⚠️ A @ 13:12:30\nUser: X\nPortfolio: P1\nIssue: I1"),
              (47552, "⚠️ A @ 13:12:32\nUser: X\nPortfolio: P2\nIssue: I2")])],
      some 0, some 0⟩ (by decide)
  exact h.1.trans (by decide)

/-! ## C2 — backlog combination at the rate limit -/

/-- Claim C2: when the pruned sent-timestamp window holds exactly
`RATE_LIMIT_MAX` entries whose oldest has not yet expired and the queue
depth is at least `COMBINE_THRESHOLD`, the next dispatch is a single
combined message — a header stating the count over every queued item as a
numbered sub-entry — after which the queue is empty and exactly one
timestamp has been recorded against the quota. -/
theorem combined_backlog_dispatch (now : ℚ) (s : SenderState)
    (hfull : (cleanOld now s.sentTs).length = RATE_LIMIT_MAX)
    (hfresh : now - RATE_LIMIT_WINDOW < (cleanOld now s.sentTs).headD 0)
    (hq : COMBINE_THRESHOLD ≤ s.queue.length) :
    drainStep now true s =
      (⟨[], cleanOld now s.sentTs ++ [now]⟩,
        some ⟨now, SendKind.combined, combineMessages s.queue⟩) ∧
    combineMessages s.queue =
      "BACKLOG COMBINED (" ++ Nat.repr s.queue.length ++ " alerts)\n"
        ++ (⟨List.replicate 36 '─'⟩ : String) ++ "\n\n"
        ++ String.intercalate "\n\n"
            ((s.queue.enum).map (fun p => "[" ++ Nat.repr (p.1 + 1) ++ "] " ++ p.2)) := by
  have hq2 : s.queue.length ≠ 1 := by
    intro h1
    rw [h1] at hq
    exact absurd hq (by decide)
  obtain ⟨q, ts0⟩ := s
  constructor
  · cases q with
    | nil => simp [COMBINE_THRESHOLD] at hq
    | cons m rest =>
      dsimp only at hfull hfresh hq ⊢
      simp only [drainStep]
      rw [hfull, if_pos (le_refl RATE_LIMIT_MAX), if_pos hfresh, if_pos hq,
        if_pos trivial]
  · unfold combineMessages
    rw [if_neg hq2]

/-- Witness for C2: a full window of 18 fresh timestamps and five queued
messages combine into one numbered dispatch. -/
theorem combined_backlog_dispatch_witness :
    drainStep 20 true
        ⟨["a", "b", "c", "d", "e"],
          [0, 1, 2, 3, 4, 5, 6, 7, 8, 9, 10, 11, 12, 13, 14, 15, 16, 17]⟩ =
      ((⟨[], [0, 1, 2, 3, 4, 5, 6, 7, 8, 9, 10, 11, 12, 13, 14, 15, 16, 17, 20]⟩ :
          SenderState),
        some ⟨20, SendKind.combined,
          "BACKLOG COMBINED (5 alerts)\n" ++ (⟨List.replicate 36 '─'⟩ : String)
            ++ "\n\n[1] a\n\n[2] b\n\n[3] c\n\n[4] d\n\n[5] e"⟩) := by
  have h := combined_backlog_dispatch 20
    ⟨["a", "b", "c", "d", "e"],
      [0, 1, 2, 3, 4, 5, 6, 7, 8, 9, 10, 11, 12, 13, 14, 15, 16, 17]⟩
    (by with_unfolding_all decide) (by with_unfolding_all decide) (by decide)
  refine h.1.trans ?_
  have hclean :
      cleanOld 20 [0, 1, 2, 3, 4, 5, 6, 7, 8, 9, 10, 11, 12, 13, 14, 15, 16, 17] =
        [0, 1, 2, 3, 4, 5, 6, 7, 8, 9, 10, 11, 12, 13, 14, 15, 16, 17] := by
    with_unfolding_all decide
  have hcomb :
      combineMessages ["a", "b", "c", "d", "e"] =
        "BACKLOG COMBINED (5 alerts)\n" ++ (⟨List.replicate 36 '─'⟩ : String)
          ++ "\n\n[1] a\n\n[2] b\n\n[3] c\n\n[4] d\n\n[5] e" := by
    decide
  dsimp only
  rw [hclean, hcomb]
  rfl

/-! ## Registry lemmas for the cooldown claims -/

theorem assocGet_assocSet_self {α : Type} (l : List (String × α)) (k : String) (v : α) :
    assocGet (assocSet l k v) k = some v := by
  induction l with
  | nil => simp [assocSet, assocGet]
  | cons p rest ih =>
    by_cases h : p.1 = k
    · simp [assocSet, assocGet, h]
    · obtain ⟨k', w⟩ := p
      simp only at h
      simp [assocSet, assocGet, h, ih]

theorem assocGet_assocSet_other {α : Type} (l : List (String × α)) {k k' : String}
    (h : k' ≠ k) (v : α) : assocGet (assocSet l k' v) k = assocGet l k := by
  induction l with
  | nil => simp [assocSet, assocGet, h]
  | cons p rest ih =>
    obtain ⟨k₀, w⟩ := p
    by_cases h0 : k₀ = k'
    · subst h0
      simp [assocSet, assocGet, h]
    · simp only [assocSet, if_neg h0]
      by_cases h1 : k₀ = k
      · simp [assocGet, h1]
      · simp [assocGet, h1, ih]

theorem assocGet_append_singleton {α : Type} (l : List (String × α)) (k key : String)
    (v : α) :
    assocGet (l ++ [(k, v)]) key =
      (match assocGet l key with
        | some w => some w
        | none => if k = key then some v else none) := by
  induction l with
  | nil => simp [assocGet]
  | cons p rest ih =>
    obtain ⟨k₀, w⟩ := p
    by_cases h : k₀ = key
    · simp [assocGet, h]
    · simp [assocGet, h, ih]

theorem lastTrigger_ensureUser (r : Registry) (u' u ty : String) :
    lastTrigger (ensureUser r u') u ty = lastTrigger r u ty := by
  unfold ensureUser
  cases h : assocGet r u' with
  | some v => rfl
  | none =>
    unfold lastTrigger
    rw [assocGet_append_singleton]
    by_cases hu : u' = u
    · subst hu
      rw [h]
      simp [assocGet]
    · cases h2 : assocGet r u with
      | some w => rfl
      | none => simp [hu]

theorem lastTrigger_recordTrigger_self (r : Registry) (u ty : String) (now : ℚ) :
    lastTrigger (recordTrigger r u ty now) u ty = now := by
  unfold recordTrigger lastTrigger
  rw [assocGet_assocSet_self]
  simp [assocGet_assocSet_self]

theorem lastTrigger_recordTrigger_other (r : Registry) {u' ty' u ty : String}
    (hne : ¬(u' = u ∧ ty' = ty)) (now : ℚ) :
    lastTrigger (recordTrigger r u' ty' now) u ty = lastTrigger r u ty := by
  unfold recordTrigger lastTrigger
  by_cases hu : u' = u
  · subst hu
    have hty : ty' ≠ ty := fun h => hne ⟨rfl, h⟩
    rw [assocGet_assocSet_self]
    simp [assocGet_assocSet_other _ hty]
  · rw [assocGet_assocSet_other _ hu]

theorem ensureUser_of_recordTrigger (r : Registry) (u ty : String) (now : ℚ) :
    ensureUser (recordTrigger r u ty now) u = recordTrigger r u ty now := by
  unfold ensureUser recordTrigger
  rw [assocGet_assocSet_self]

/-! ## C6 — the cooldown gate on a pair of firings -/

/-- Claim C6: after an allowed firing of a key at time `t₁`, a second
candidate of the same key at `t₂` is suppressed with the registry left
completely unchanged when `t₂ - t₁ < cooldown_seconds` (only one event is
emitted overall), and is emitted with the registry entry overwritten to
`t₂` when `t₂ - t₁ ≥ cooldown_seconds`. -/
theorem cooldown_pair_gate (a : AlertEvent) (r₀ : Registry) (t₁ t₂ : ℚ)
    (h₁ : cooldown_seconds ≤ t₁ - lastTrigger r₀ a.user_alias a.alert_type) :
    (applyCooldown t₁ r₀ [a]).1 = [a] ∧
    lastTrigger (applyCooldown t₁ r₀ [a]).2 a.user_alias a.alert_type = t₁ ∧
    (t₂ - t₁ < cooldown_seconds →
      (applyCooldown t₂ (applyCooldown t₁ r₀ [a]).2 [a]).1 = [] ∧
      (applyCooldown t₂ (applyCooldown t₁ r₀ [a]).2 [a]).2 = (applyCooldown t₁ r₀ [a]).2) ∧
    (cooldown_seconds ≤ t₂ - t₁ →
      (applyCooldown t₂ (applyCooldown t₁ r₀ [a]).2 [a]).1 = [a] ∧
      lastTrigger (applyCooldown t₂ (applyCooldown t₁ r₀ [a]).2 [a]).2
        a.user_alias a.alert_type = t₂) := by
  have hlast1 : lastTrigger (ensureUser r₀ a.user_alias) a.user_alias a.alert_type =
      lastTrigger r₀ a.user_alias a.alert_type :=
    lastTrigger_ensureUser r₀ a.user_alias a.user_alias a.alert_type
  have hfirst : applyCooldown t₁ r₀ [a] =
      ([a], recordTrigger (ensureUser r₀ a.user_alias) a.user_alias a.alert_type t₁) := by
    unfold applyCooldown applyCooldownGo
    dsimp only
    rw [hlast1, if_pos h₁]
    rfl
  have hR1 : lastTrigger (applyCooldown t₁ r₀ [a]).2 a.user_alias a.alert_type = t₁ := by
    rw [hfirst]
    exact lastTrigger_recordTrigger_self _ _ _ _
  refine ⟨by rw [hfirst], hR1, fun hlt => ?_, fun hge => ?_⟩
  · have hsecond : applyCooldown t₂ (applyCooldown t₁ r₀ [a]).2 [a] =
        ([], (applyCooldown t₁ r₀ [a]).2) := by
      rw [hfirst]
      unfold applyCooldown applyCooldownGo
      dsimp only
      rw [ensureUser_of_recordTrigger, lastTrigger_recordTrigger_self,
        if_neg (not_le.mpr hlt)]
      rfl
    exact ⟨by rw [hsecond], by rw [hsecond]⟩
  · have hsecond : applyCooldown t₂ (applyCooldown t₁ r₀ [a]).2 [a] =
        ([a], recordTrigger (applyCooldown t₁ r₀ [a]).2 a.user_alias a.alert_type t₂) := by
      rw [hfirst]
      unfold applyCooldown applyCooldownGo
      dsimp only
      rw [ensureUser_of_recordTrigger, lastTrigger_recordTrigger_self, if_pos hge]
      rfl
    rw [hsecond]
    exact ⟨rfl, lastTrigger_recordTrigger_self _ _ _ _⟩

/-- Witness for C6: one concrete alert allowed at `t = 500`, suppressed
with registry untouched at `t = 700`, allowed again at `t = 900`. -/
theorem cooldown_pair_gate_witness :
    (applyCooldown 500 [] [⟨"U", "mtm_above", "MTM Above Threshold", 1, 2, 500⟩]).1 =
      [⟨"U", "mtm_above", "MTM Above Threshold", 1, 2, 500⟩] ∧
    (applyCooldown 700
        (applyCooldown 500 [] [⟨"U", "mtm_above", "MTM Above Threshold", 1, 2, 500⟩]).2
        [⟨"U", "mtm_above", "MTM Above Threshold", 1, 2, 500⟩]).1 = [] ∧
    (applyCooldown 700
        (applyCooldown 500 [] [⟨"U", "mtm_above", "MTM Above Threshold", 1, 2, 500⟩]).2
        [⟨"U", "mtm_above", "MTM Above Threshold", 1, 2, 500⟩]).2 =
      (applyCooldown 500 [] [⟨"U", "mtm_above", "MTM Above Threshold", 1, 2, 500⟩]).2 ∧
    (applyCooldown 900
        (applyCooldown 500 [] [⟨"U", "mtm_above", "MTM Above Threshold", 1, 2, 500⟩]).2
        [⟨"U", "mtm_above", "MTM Above Threshold", 1, 2, 500⟩]).1 =
      [⟨"U", "mtm_above", "MTM Above Threshold", 1, 2, 500⟩] := by
  have h7 := cooldown_pair_gate ⟨"U", "mtm_above", "MTM Above Threshold", 1, 2, 500⟩
    [] 500 700 (by with_unfolding_all decide)
  have h9 := cooldown_pair_gate ⟨"U", "mtm_above", "MTM Above Threshold", 1, 2, 500⟩
    [] 500 900 (by with_unfolding_all decide)
  exact ⟨h7.1, (h7.2.2.1 (by with_unfolding_all decide)).1,
    (h7.2.2.1 (by with_unfolding_all decide)).2,
    (h9.2.2.2 (by with_unfolding_all decide)).1⟩

/-! ## C10 — at most one emitted alert per key per call -/

/-- Predicate picking alerts of a given `(user_alias, alert_type)` key. -/
def hasKey (u ty : String) (a : AlertEvent) : Bool :=
  a.user_alias == u && a.alert_type == ty

/-- While a key is inside its cooldown at the shared `current_time` of one
`_apply_cooldown` call, no candidate of that key can be emitted by the rest
of the scan. -/
theorem applyCooldownGo_no_emit (now : ℚ) (u ty : String) :
    ∀ (alerts : List AlertEvent) (r : Registry),
      now - lastTrigger r u ty < cooldown_seconds →
      (applyCooldownGo now r alerts).1.filter (hasKey u ty) = [] := by
  intro alerts
  induction alerts with
  | nil => intro r _; rfl
  | cons a rest ih =>
    intro r h
    have hens : lastTrigger (ensureUser r a.user_alias) u ty = lastTrigger r u ty :=
      lastTrigger_ensureUser r a.user_alias u ty
    unfold applyCooldownGo
    dsimp only
    by_cases hkey : a.user_alias = u ∧ a.alert_type = ty
    · obtain ⟨hu, hty⟩ := hkey
      rw [hu] at hens
      rw [hu, hty, hens, if_neg (not_le.mpr h)]
      exact ih _ (by rw [hens]; exact h)
    · have hfilter : hasKey u ty a = false := by
        unfold hasKey
        rcases not_and_or.mp hkey with hne | hne
        · simp [hne]
        · simp [hne]
      by_cases hcool :
          cooldown_seconds ≤ now - lastTrigger (ensureUser r a.user_alias)
            a.user_alias a.alert_type
      · rw [if_pos hcool]
        dsimp only
        rw [List.filter_cons_of_neg (by simp [hfilter])]
        exact ih _ (by
          rw [lastTrigger_recordTrigger_other _ hkey, hens]
          exact h)
      · rw [if_neg hcool]
        exact ih _ (by rw [hens]; exact h)

/-- Claim C10: in one `check_all_alerts` call the emitted list is a
subsequence of the candidate list (relative order preserved), and at most
one alert per `(user_alias, alert_type)` key survives the cooldown filter
even when the batch holds several candidates of that key. -/
theorem per_key_at_most_once (now : ℚ) (r : Registry) (alerts : List AlertEvent) :
    ((applyCooldown now r alerts).1).Sublist alerts ∧
    ∀ u ty, ((applyCooldown now r alerts).1.filter (hasKey u ty)).length ≤ 1 := by
  constructor
  · induction alerts generalizing r with
    | nil => exact List.Sublist.refl []
    | cons a rest ih =>
      unfold applyCooldown applyCooldownGo
      dsimp only
      by_cases hcool :
          cooldown_seconds ≤ now - lastTrigger (ensureUser r a.user_alias)
            a.user_alias a.alert_type
      · rw [if_pos hcool]
        exact List.Sublist.cons₂ a (ih _)
      · rw [if_neg hcool]
        exact List.Sublist.cons a (ih _)
  · intro u ty
    induction alerts generalizing r with
    | nil => simp [applyCooldown, applyCooldownGo]
    | cons a rest ih =>
      unfold applyCooldown applyCooldownGo
      dsimp only
      by_cases hcool :
          cooldown_seconds ≤ now - lastTrigger (ensureUser r a.user_alias)
            a.user_alias a.alert_type
      · rw [if_pos hcool]
        dsimp only
        by_cases hkey : hasKey u ty a = true
        · rw [List.filter_cons_of_pos hkey]
          have hu : a.user_alias = u := by
            have hb := hkey
            unfold hasKey at hb
            exact eq_of_beq (Bool.and_elim_left hb)
          have hty : a.alert_type = ty := by
            have hb := hkey
            unfold hasKey at hb
            exact eq_of_beq (Bool.and_elim_right hb)
          have hz : (applyCooldownGo now
              (recordTrigger (ensureUser r a.user_alias) a.user_alias a.alert_type now)
              rest).1.filter (hasKey u ty) = [] := by
            apply applyCooldownGo_no_emit
            rw [← hu, ← hty, lastTrigger_recordTrigger_self]
            simp [cooldown_seconds]
          rw [hz]
          simp
        · rw [List.filter_cons_of_neg (by simpa using hkey)]
          exact ih _
      · rw [if_neg hcool]
        exact ih _

/-- Witness for C10 at a concrete batch: three same-key candidates and one
other-key candidate yield one alert per key, in candidate order. -/
theorem per_key_at_most_once_witness :
    ((applyCooldown 1000 []
        [⟨"U", "mtm_above", "MTM Above Threshold", 1, 2, 1000⟩,
          ⟨"U", "mtm_above", "MTM Above Threshold", 1, 3, 1000⟩,
          ⟨"V", "roi_below", "ROI% Below Threshold", -5, -9, 1000⟩,
          ⟨"U", "mtm_above", "MTM Above Threshold", 1, 4, 1000⟩]).1).Sublist
      [⟨"U", "mtm_above", "MTM Above Threshold", 1, 2, 1000⟩,
        ⟨"U", "mtm_above", "MTM Above Threshold", 1, 3, 1000⟩,
        ⟨"V", "roi_below", "ROI% Below Threshold", -5, -9, 1000⟩,
        ⟨"U", "mtm_above", "MTM Above Threshold", 1, 4, 1000⟩] ∧
    ((applyCooldown 1000 []
        [⟨"U", "mtm_above", "MTM Above Threshold", 1, 2, 1000⟩,
          ⟨"U", "mtm_above", "MTM Above Threshold", 1, 3, 1000⟩,
          ⟨"V", "roi_below", "ROI% Below Threshold", -5, -9, 1000⟩,
          ⟨"U", "mtm_above", "MTM Above Threshold", 1, 4, 1000⟩]).1.filter
        (hasKey "U" "mtm_above")).length ≤ 1 :=
  ⟨(per_key_at_most_once 1000 []
      [⟨"U", "mtm_above", "MTM Above Threshold", 1, 2, 1000⟩,
        ⟨"U", "mtm_above", "MTM Above Threshold", 1, 3, 1000⟩,
        ⟨"V", "roi_below", "ROI% Below Threshold", -5, -9, 1000⟩,
        ⟨"U", "mtm_above", "MTM Above Threshold", 1, 4, 1000⟩]).1,
    (per_key_at_most_once 1000 []
      [⟨"U", "mtm_above", "MTM Above Threshold", 1, 2, 1000⟩,
        ⟨"U", "mtm_above", "MTM Above Threshold", 1, 3, 1000⟩,
        ⟨"V", "roi_below", "ROI% Below Threshold", -5, -9, 1000⟩,
        ⟨"U", "mtm_above", "MTM Above Threshold", 1, 4, 1000⟩]).2 "U" "mtm_above"⟩

/-! ## C9 — guarded divisions in rule evaluation -/

/-- Counterexample to claim C9's parenthetical: with non-positive total
margin the utilization percentage is `0`, yet a *negative* configured
threshold still fires `margin_above` (`0 > -1`). -/
theorem margin_guard_cex :
    (⟨"U", 0, 0, 0, 0, 0, 0, 0, 0, 0⟩ : OptionsPositionSummary).available_margin +
        (⟨"U", 0, 0, 0, 0, 0, 0, 0, 0, 0⟩ : OptionsPositionSummary).utilized_margin ≤ 0 ∧
    checkMargin 0 ⟨"U", 0, 0, 0, 0, 0, 0, 0, 0, 0⟩ (some (-1)) =
      some ⟨"U", "margin_above", "Margin Utilization", -1, 0, 0⟩ := by
  constructor
  · with_unfolding_all decide
  · with_unfolding_all decide

/-- Claim C9 (amended): rule evaluation performs no unguarded division —
with non-positive utilized margin the ROI% is taken to be `0`, and with
non-positive total margin the utilization percentage is taken to be `0`, so
no `margin_above` alert can fire there as long as the configured threshold
is nonnegative (a negative threshold still fires on `0`). -/
theorem division_guard_amended :
    (∀ s : OptionsPositionSummary, s.utilized_margin ≤ 0 → roiPercent s = 0) ∧
    (∀ s : OptionsPositionSummary, s.available_margin + s.utilized_margin ≤ 0 →
      marginPercent s = 0) ∧
    (∀ (now : ℚ) (s : OptionsPositionSummary) (th : ℚ),
      s.available_margin + s.utilized_margin ≤ 0 → 0 ≤ th →
      checkMargin now s (some th) = none) := by
  have hmp : ∀ s : OptionsPositionSummary,
      s.available_margin + s.utilized_margin ≤ 0 → marginPercent s = 0 := by
    intro s h
    unfold marginPercent
    dsimp only
    rw [if_neg (not_lt.mpr h)]
  refine ⟨fun s h => ?_, hmp, fun now s th h hth => ?_⟩
  · unfold roiPercent
    rw [if_neg (not_lt.mpr h)]
  · unfold checkMargin
    dsimp only
    rw [hmp s h, if_neg (not_lt.mpr hth)]

/-- Witness for C9's amended theorem: a summary with negative utilized and
total margin produces zero percentages and no margin alert. -/
theorem division_guard_amended_witness :
    roiPercent ⟨"U", 7, 0, 0, 0, 0, 0, 0, 3, -5⟩ = 0 ∧
    marginPercent ⟨"U", 7, 0, 0, 0, 0, 0, 0, 3, -5⟩ = 0 ∧
    checkMargin 0 ⟨"U", 7, 0, 0, 0, 0, 0, 0, 3, -5⟩ (some 85) = none :=
  ⟨division_guard_amended.1 _ (by with_unfolding_all decide),
    division_guard_amended.2.1 _ (by with_unfolding_all decide),
    division_guard_amended.2.2 0 _ 85 (by with_unfolding_all decide)
      (by with_unfolding_all decide)⟩

/-! ## C1 — the sliding-window rate limit

The claim is settled over event traces of `runDrain`: a step sequence is an
execution when its wall-clock times are nondecreasing.  The counterexample
below shows a legal execution recording nineteen sends inside one 58-second
window (the combined-backlog send is dispatched while the window is already
full); the amended bound charges every excess send to a combined dispatch. -/

theorem windowCount_append (tr l : List SendEvent) (t : ℚ) :
    windowCount (tr ++ l) t = windowCount tr t + windowCount l t := by
  unfold windowCount
  rw [List.countP_append]

theorem windowCombined_append (tr l : List SendEvent) (t : ℚ) :
    windowCombined (tr ++ l) t = windowCombined tr t + windowCombined l t := by
  unfold windowCombined
  rw [List.countP_append]

theorem sends_dropped_bound {dropped : List ℚ} {tprev now : ℚ}
    (htp : tprev ≤ now) (hdrop : ∀ x ∈ dropped, x < tprev - RATE_LIMIT_WINDOW) :
    ∀ x ∈ dropped, x < now - RATE_LIMIT_WINDOW :=
  fun x hx => lt_of_lt_of_le (hdrop x hx) (by linarith)

theorem takeWhile_clean_bound (now : ℚ) (l : List ℚ) :
    ∀ x ∈ l.takeWhile (fun x => decide (x < now - RATE_LIMIT_WINDOW)),
      x < now - RATE_LIMIT_WINDOW := by
  intro x hx
  have h := List.mem_takeWhile_imp (p := fun x => decide (x < now - RATE_LIMIT_WINDOW)) hx
  exact of_decide_eq_true h

theorem clean_split (now : ℚ) (l : List ℚ) :
    l = l.takeWhile (fun x => decide (x < now - RATE_LIMIT_WINDOW))
      ++ cleanOld now l := by
  unfold cleanOld
  exact (List.takeWhile_append_dropWhile _ _).symm

/-- A send dispatched at time `now` sees, in its pruned deque, every earlier
recorded send that can share a window ending at or after `now` — so any
window count is bounded by the pruned deque length. -/
theorem windowCount_le_clean (tr : List SendEvent) (dropped sent : List ℚ)
    (now t : ℚ)
    (htr : tr.map SendEvent.ts = dropped ++ sent)
    (hdrop : ∀ x ∈ dropped, x < now - RATE_LIMIT_WINDOW)
    (hwle : now ≤ t + RATE_LIMIT_WINDOW) :
    windowCount tr t ≤ (cleanOld now sent).length := by
  have h1 : windowCount tr t ≤
      tr.countP (fun e => decide (now - RATE_LIMIT_WINDOW < e.ts)) := by
    apply List.countP_mono_left
    intro e _ hin
    unfold inWindow at hin
    have h2 : t < e.ts := of_decide_eq_true (Bool.and_elim_left hin)
    exact decide_eq_true (lt_of_le_of_lt (by linarith) h2)
  have h4 : tr.countP (fun e => decide (now - RATE_LIMIT_WINDOW < e.ts)) =
      (tr.map SendEvent.ts).countP (fun x => decide (now - RATE_LIMIT_WINDOW < x)) := by
    rw [List.countP_map]
    rfl
  have h5 : dropped.countP (fun x => decide (now - RATE_LIMIT_WINDOW < x)) = 0 :=
    List.countP_eq_zero.mpr fun x hx => by
      simp only [decide_eq_true_eq]
      exact not_lt.mpr (le_of_lt (hdrop x hx))
  have h6 : sent.countP (fun x => decide (now - RATE_LIMIT_WINDOW < x)) ≤
      (cleanOld now sent).length := by
    conv_lhs => rw [clean_split now sent]
    rw [List.countP_append]
    have h7 : (sent.takeWhile fun x => decide (x < now - RATE_LIMIT_WINDOW)).countP
        (fun x => decide (now - RATE_LIMIT_WINDOW < x)) = 0 :=
      List.countP_eq_zero.mpr fun x hx => by
        simp only [decide_eq_true_eq]
        exact not_lt.mpr (le_of_lt (takeWhile_clean_bound now sent x hx))
    rw [h7, Nat.zero_add]
    exact List.countP_le_length _
  calc windowCount tr t
      ≤ tr.countP (fun e => decide (now - RATE_LIMIT_WINDOW < e.ts)) := h1
    _ = (tr.map SendEvent.ts).countP (fun x => decide (now - RATE_LIMIT_WINDOW < x)) := h4
    _ = dropped.countP (fun x => decide (now - RATE_LIMIT_WINDOW < x))
          + sent.countP (fun x => decide (now - RATE_LIMIT_WINDOW < x)) := by
        rw [htr, List.countP_append]
    _ = sent.countP (fun x => decide (now - RATE_LIMIT_WINDOW < x)) := by
        rw [h5, Nat.zero_add]
    _ ≤ (cleanOld now sent).length := h6

theorem window_extend_combined (tr : List SendEvent) (now : ℚ) (msg : String)
    (hwin : ∀ t, windowCount tr t ≤ RATE_LIMIT_MAX + windowCombined tr t) (t : ℚ) :
    windowCount (tr ++ [⟨now, SendKind.combined, msg⟩]) t ≤
      RATE_LIMIT_MAX + windowCombined (tr ++ [⟨now, SendKind.combined, msg⟩]) t := by
  rw [windowCount_append, windowCombined_append]
  have hw := hwin t
  cases hin : inWindow t ⟨now, SendKind.combined, msg⟩ with
  | false =>
    have e1 : windowCount [⟨now, SendKind.combined, msg⟩] t = 0 := by
      unfold windowCount
      rw [List.countP_singleton]
      simp [hin]
    have e2 : windowCombined [⟨now, SendKind.combined, msg⟩] t = 0 := by
      unfold windowCombined
      rw [List.countP_singleton]
      simp [hin]
    rw [e1, e2]
    omega
  | true =>
    have e1 : windowCount [⟨now, SendKind.combined, msg⟩] t = 1 := by
      unfold windowCount
      rw [List.countP_singleton]
      simp [hin]
    have e2 : windowCombined [⟨now, SendKind.combined, msg⟩] t = 1 := by
      unfold windowCombined
      rw [List.countP_singleton]
      simp [hin]
    rw [e1, e2]
    omega

theorem window_extend_normal (tr : List SendEvent) (now : ℚ) (msg : String)
    (hwin : ∀ t, windowCount tr t ≤ RATE_LIMIT_MAX + windowCombined tr t)
    (hbound : ∀ t, inWindow t ⟨now, SendKind.normal, msg⟩ = true →
      windowCount tr t < RATE_LIMIT_MAX) (t : ℚ) :
    windowCount (tr ++ [⟨now, SendKind.normal, msg⟩]) t ≤
      RATE_LIMIT_MAX + windowCombined (tr ++ [⟨now, SendKind.normal, msg⟩]) t := by
  rw [windowCount_append, windowCombined_append]
  have e2 : windowCombined [⟨now, SendKind.normal, msg⟩] t = 0 := by
    unfold windowCombined
    rw [List.countP_singleton]
    simp
  rw [e2]
  cases hin : inWindow t ⟨now, SendKind.normal, msg⟩ with
  | false =>
    have e1 : windowCount [⟨now, SendKind.normal, msg⟩] t = 0 := by
      unfold windowCount
      rw [List.countP_singleton]
      simp [hin]
    have hw := hwin t
    rw [e1]
    omega
  | true =>
    have e1 : windowCount [⟨now, SendKind.normal, msg⟩] t = 1 := by
      unfold windowCount
      rw [List.countP_singleton]
      simp [hin]
    have hb := hbound t hin
    rw [e1]
    omega

/-- One drain iteration preserves the trace invariants: the recorded trace
timestamps are the deque plus timestamps already pruned (all expired), and
every window's total send count stays within `RATE_LIMIT_MAX` plus the
combined sends of that window. -/
theorem drainStep_preserves (now : ℚ) (ok : Bool) (s : SenderState)
    (tr : List SendEvent) (dropped : List ℚ) (tprev : ℚ)
    (htp : tprev ≤ now)
    (htr : tr.map SendEvent.ts = dropped ++ s.sentTs)
    (hdrop : ∀ x ∈ dropped, x < tprev - RATE_LIMIT_WINDOW)
    (hwin : ∀ t, windowCount tr t ≤ RATE_LIMIT_MAX + windowCombined tr t) :
    ∃ dropped' : List ℚ,
      ((tr ++ (drainStep now ok s).2.toList).map SendEvent.ts =
        dropped' ++ (drainStep now ok s).1.sentTs) ∧
      (∀ x ∈ dropped', x < now - RATE_LIMIT_WINDOW) ∧
      (∀ t, windowCount (tr ++ (drainStep now ok s).2.toList) t ≤
        RATE_LIMIT_MAX + windowCombined (tr ++ (drainStep now ok s).2.toList) t) := by
  obtain ⟨q, sent⟩ := s
  dsimp only at htr
  have hdropN : ∀ x ∈ dropped, x < now - RATE_LIMIT_WINDOW :=
    sends_dropped_bound htp hdrop
  have hdrop2 : ∀ x ∈ dropped
      ++ (sent.takeWhile fun x => decide (x < now - RATE_LIMIT_WINDOW)),
      x < now - RATE_LIMIT_WINDOW := by
    intro x hx
    rcases List.mem_append.mp hx with h | h
    · exact hdropN x h
    · exact takeWhile_clean_bound now sent x h
  have htr2 : tr.map SendEvent.ts =
      (dropped ++ (sent.takeWhile fun x => decide (x < now - RATE_LIMIT_WINDOW)))
        ++ cleanOld now sent := by
    rw [htr, List.append_assoc, ← clean_split now sent]
  cases q with
  | nil =>
    refine ⟨dropped, ?_, hdropN, ?_⟩
    · simpa [drainStep] using htr
    · intro t
      simpa [drainStep] using hwin t
  | cons m rest =>
    by_cases hlim : RATE_LIMIT_MAX ≤ (cleanOld now sent).length
    · by_cases hfresh : now - RATE_LIMIT_WINDOW < (cleanOld now sent).headD 0
      · by_cases hcomb : COMBINE_THRESHOLD ≤ (m :: rest).length
        · cases ok with
          | true =>
            have hstep : drainStep now true ⟨m :: rest, sent⟩ =
                (⟨[], cleanOld now sent ++ [now]⟩,
                  some ⟨now, SendKind.combined, combineMessages (m :: rest)⟩) := by
              simp only [drainStep]
              rw [if_pos hlim, if_pos hfresh, if_pos hcomb, if_pos trivial]
            rw [hstep]
            refine ⟨dropped
              ++ (sent.takeWhile fun x => decide (x < now - RATE_LIMIT_WINDOW)),
              ?_, hdrop2, ?_⟩
            · simp only [Option.toList_some, List.map_append, htr2]
              simp [List.append_assoc]
            · intro t
              exact window_extend_combined tr now _ hwin t
          | false =>
            have hstep : drainStep now false ⟨m :: rest, sent⟩ =
                (⟨[], cleanOld now sent⟩, none) := by
              simp only [drainStep]
              rw [if_pos hlim, if_pos hfresh, if_pos hcomb, if_neg (by simp)]
            rw [hstep]
            refine ⟨dropped
              ++ (sent.takeWhile fun x => decide (x < now - RATE_LIMIT_WINDOW)),
              ?_, hdrop2, ?_⟩
            · simpa using htr2
            · intro t
              simpa using hwin t
        · have hstep : drainStep now ok ⟨m :: rest, sent⟩ =
              (⟨m :: rest, cleanOld now sent⟩, none) := by
            simp only [drainStep]
            rw [if_pos hlim, if_pos hfresh, if_neg hcomb]
          rw [hstep]
          refine ⟨dropped
            ++ (sent.takeWhile fun x => decide (x < now - RATE_LIMIT_WINDOW)),
            ?_, hdrop2, ?_⟩
          · simpa using htr2
          · intro t
            simpa using hwin t
      · have hstep : drainStep now ok ⟨m :: rest, sent⟩ =
            (⟨m :: rest, cleanOld now sent⟩, none) := by
          simp only [drainStep]
          rw [if_pos hlim, if_neg hfresh]
        rw [hstep]
        refine ⟨dropped
          ++ (sent.takeWhile fun x => decide (x < now - RATE_LIMIT_WINDOW)),
          ?_, hdrop2, ?_⟩
        · simpa using htr2
        · intro t
          simpa using hwin t
    · cases ok with
      | true =>
        have hstep : drainStep now true ⟨m :: rest, sent⟩ =
            (⟨rest, cleanOld now sent ++ [now]⟩,
              some ⟨now, SendKind.normal, m⟩) := by
          simp only [drainStep]
          rw [if_neg hlim, if_pos trivial]
        rw [hstep]
        refine ⟨dropped
          ++ (sent.takeWhile fun x => decide (x < now - RATE_LIMIT_WINDOW)),
          ?_, hdrop2, ?_⟩
        · simp only [Option.toList_some, List.map_append, htr2]
          simp [List.append_assoc]
        · intro t
          refine window_extend_normal tr now m hwin ?_ t
          intro t' hin
          have hle : now ≤ t' + RATE_LIMIT_WINDOW :=
            of_decide_eq_true (Bool.and_elim_right hin)
          exact lt_of_le_of_lt
            (windowCount_le_clean tr dropped sent now t' htr hdropN hle)
            (not_le.mp hlim)
      | false =>
        have hstep : drainStep now false ⟨m :: rest, sent⟩ =
            (⟨rest, cleanOld now sent⟩, none) := by
          simp only [drainStep]
          rw [if_neg hlim, if_neg (by simp)]
        rw [hstep]
        refine ⟨dropped
          ++ (sent.takeWhile fun x => decide (x < now - RATE_LIMIT_WINDOW)),
          ?_, hdrop2, ?_⟩
        · simpa using htr2
        · intro t
          simpa using hwin t

theorem drain_window_aux (steps : List (ℚ × Bool)) :
    ∀ (s : SenderState) (tr : List SendEvent) (dropped : List ℚ) (tprev : ℚ),
      List.Chain (· ≤ ·) tprev (steps.map Prod.fst) →
      tr.map SendEvent.ts = dropped ++ s.sentTs →
      (∀ x ∈ dropped, x < tprev - RATE_LIMIT_WINDOW) →
      (∀ t, windowCount tr t ≤ RATE_LIMIT_MAX + windowCombined tr t) →
      ∀ t, windowCount (tr ++ (runDrain steps s).2) t ≤
        RATE_LIMIT_MAX + windowCombined (tr ++ (runDrain steps s).2) t := by
  induction steps with
  | nil =>
    intro s tr dropped tprev _ _ _ hwin t
    simpa [runDrain] using hwin t
  | cons p rest ih =>
    intro s tr dropped tprev hchain htr hdrop hwin t
    obtain ⟨now, ok⟩ := p
    rw [List.map_cons] at hchain
    have htp : tprev ≤ now := (List.chain_cons.mp hchain).1
    have hchain2 : List.Chain (· ≤ ·) now (rest.map Prod.fst) :=
      (List.chain_cons.mp hchain).2
    obtain ⟨dropped2, h1, h2, h3⟩ :=
      drainStep_preserves now ok s tr dropped tprev htp htr hdrop hwin
    have hrun : (runDrain ((now, ok) :: rest) s).2 =
        (drainStep now ok s).2.toList ++ (runDrain rest (drainStep now ok s).1).2 := by
      simp [runDrain]
    rw [hrun, ← List.append_assoc]
    exact ih (drainStep now ok s).1 (tr ++ (drainStep now ok s).2.toList)
      dropped2 now hchain2 h1 h2 h3 t

/-- Claim C1 (amended): in every execution of the sender with nondecreasing
step times, started with an empty sent-timestamp window, the number of
completed sends recorded in any sliding window of `RATE_LIMIT_WINDOW`
seconds exceeds `RATE_LIMIT_MAX` only by the number of combined-backlog
sends in that window — in particular, with no combined-backlog send the
`RATE_LIMIT_MAX` bound holds, but a combined dispatch is sent while the
window is already full and pushes the count past the limit. -/
theorem rate_limit_window_amended (steps : List (ℚ × Bool)) (q0 : List String)
    (hmono : List.Chain' (· ≤ ·) (steps.map Prod.fst)) (t : ℚ) :
    windowCount (runDrain steps ⟨q0, []⟩).2 t ≤
      RATE_LIMIT_MAX + windowCombined (runDrain steps ⟨q0, []⟩).2 t := by
  cases steps with
  | nil => simp [runDrain, windowCount, windowCombined]
  | cons p rest =>
    rw [List.map_cons] at hmono
    have hchain : List.Chain (· ≤ ·) p.1 ((p :: rest).map Prod.fst) := by
      rw [List.map_cons]
      exact List.Chain.cons (le_refl _) hmono
    have h := drain_window_aux (p :: rest) ⟨q0, []⟩ [] [] p.1 hchain rfl
      (by intro x hx; cases hx) (by intro t2; simp [windowCount, windowCombined]) t
    simpa using h

/-- Drain schedule of the C1 counterexample: nineteen iterations at seconds
0–18, every delivery succeeding. -/
def cexSteps : List (ℚ × Bool) :=
  [(0, true), (1, true), (2, true), (3, true), (4, true), (5, true), (6, true),
    (7, true), (8, true), (9, true), (10, true), (11, true), (12, true),
    (13, true), (14, true), (15, true), (16, true), (17, true), (18, true)]

/-- Counterexample to claim C1: a legal execution (times nondecreasing) in
which the sender records more than `RATE_LIMIT_MAX` completed sends inside
the single 58-second window `(-1, 57]` — eighteen individual sends followed
by one combined-backlog send dispatched while the window is full. -/
theorem rate_limit_cex :
    List.Chain' (· ≤ ·) (cexSteps.map Prod.fst) ∧
    RATE_LIMIT_MAX <
      windowCount (runDrain cexSteps ⟨List.replicate 23 "m", []⟩).2 (-1) := by
  constructor
  · norm_num [cexSteps, List.chain'_cons]
  · with_unfolding_all decide

/-- Witness for C1's amended bound at the counterexample execution: the
window holds 19 sends, within `RATE_LIMIT_MAX` plus its one combined
send. -/
theorem rate_limit_window_amended_witness :
    windowCount (runDrain cexSteps ⟨List.replicate 23 "m", []⟩).2 (-1) ≤
      RATE_LIMIT_MAX +
        windowCombined (runDrain cexSteps ⟨List.replicate 23 "m", []⟩).2 (-1) :=
  rate_limit_window_amended cexSteps (List.replicate 23 "m")
    (by norm_num [cexSteps, List.chain'_cons]) (-1)

end StoxxoMonitor
